import Mathlib

/-!
Verification of the cTrader OHLC market-data layer
(`src/app/services/market_data/{common,rest,streaming}.py`).

The Python code is shallowly embedded: JSON payloads become `JValue`,
Python `datetime` objects become `PyDateTime` (civil fields plus an optional
UTC offset in seconds, `none` meaning a naive datetime), Python floats are
modelled as exact rationals, and raising `ValueError` /
`CTraderMarketDataError` becomes returning `Except.error` with the
corresponding `PyErr` constructor.  Network transports are oracle inputs:
the REST call takes the upstream `RestResponse` as an argument and the
streaming session takes the list of observed connection-attempt outcomes.
-/

deriving instance DecidableEq for Except

/-- Error taxonomy of the Python code: `valueError` models Python's
`ValueError`, `marketDataError` models `CTraderMarketDataError`. -/
inductive PyErr where
  | valueError (msg : String)
  | marketDataError (msg : String)
deriving Repr, DecidableEq

/-- JSON values as decoded by `json.loads` / `response.json()`.
Numbers are exact rationals (Python floats are not re-rounded here; no claim
depends on binary-float rounding). -/
inductive JValue where
  | null
  | bool (b : Bool)
  | num (q : ℚ)
  | str (s : String)
  | arr (xs : List JValue)
  | obj (fields : List (String × JValue))

/-- Python `datetime` value: civil fields plus `tzOffset`, the UTC offset of
its `tzinfo` in seconds (`none` = naive datetime). -/
structure PyDateTime where
  year : ℕ
  month : ℕ
  day : ℕ
  hour : ℕ
  minute : ℕ
  second : ℕ
  microsecond : ℕ
  tzOffset : Option ℤ
deriving Repr, DecidableEq

/-- The ten decimal digit characters, in value order. -/
def decimalDigits : List Char := ['0', '1', '2', '3', '4', '5', '6', '7', '8', '9']

/-- Decimal digit to character. -/
def digitChar (d : ℕ) : Char := decimalDigits.getD d '?'

/-- Character to decimal digit. -/
def digitVal? (c : Char) : Option ℕ := decimalDigits.indexOf? c

def print2 (n : ℕ) : List Char := [digitChar (n / 10), digitChar (n % 10)]

def print4 (n : ℕ) : List Char :=
  [digitChar (n / 1000), digitChar (n / 100 % 10), digitChar (n / 10 % 10), digitChar (n % 10)]

def print6 (n : ℕ) : List Char :=
  [digitChar (n / 100000), digitChar (n / 10000 % 10), digitChar (n / 1000 % 10),
   digitChar (n / 100 % 10), digitChar (n / 10 % 10), digitChar (n % 10)]

def parse2 (a b : Char) : Option ℕ := do
  let x ← digitVal? a
  let y ← digitVal? b
  pure (10 * x + y)

def parse4 (a b c d : Char) : Option ℕ := do
  let x ← digitVal? a
  let y ← digitVal? b
  let z ← digitVal? c
  let w ← digitVal? d
  pure (1000 * x + 100 * y + 10 * z + w)

def parseDigits (cs : List Char) : Option ℕ :=
  cs.foldl (fun acc c => do
    let a ← acc
    let d ← digitVal? c
    pure (10 * a + d)) (some 0)

/-- Days in a month of the proleptic Gregorian calendar (as used by
Python `datetime`). -/
def daysInMonth (y m : ℕ) : ℕ :=
  if m = 2 then (if y % 4 = 0 ∧ (y % 100 ≠ 0 ∨ y % 400 = 0) then 29 else 28)
  else if m = 4 ∨ m = 6 ∨ m = 9 ∨ m = 11 then 30 else 31

/-- Civil date from days since the Unix epoch (Gregorian calendar; the same
conversion CPython's `datetime` performs).  Lean's `Int` division is
Euclidean, i.e. floor division for the positive divisors used here. -/
def civilFromDays (days : ℤ) : ℤ × ℕ × ℕ :=
  let z : ℤ := days + 719468
  let era : ℤ := z / 146097
  let doe : ℤ := z - era * 146097
  let yoe : ℤ := (doe - doe / 1460 + doe / 36524 - doe / 146096) / 365
  let y : ℤ := yoe + era * 400
  let doy : ℤ := doe - (365 * yoe + yoe / 4 - yoe / 100)
  let mp : ℤ := (5 * doy + 2) / 153
  let d : ℤ := doy - (153 * mp + 2) / 5 + 1
  let m : ℤ := if mp < 10 then mp + 3 else mp - 9
  (if m ≤ 2 then y + 1 else y, m.toNat, d.toNat)

/-- Days since the Unix epoch from a civil (proleptic Gregorian) date. -/
def daysFromCivil (y m d : ℕ) : ℤ :=
  let y' : ℤ := if m ≤ 2 then (y : ℤ) - 1 else (y : ℤ)
  let era : ℤ := y' / 400
  let yoe : ℤ := y' - era * 400
  let mp : ℤ := if m ≤ 2 then (m : ℤ) + 9 else (m : ℤ) - 3
  let doy : ℤ := (153 * mp + 2) / 5 + (d : ℤ) - 1
  let doe : ℤ := yoe * 365 + yoe / 4 - yoe / 100 + doy
  era * 146097 + doe - 719468

/-- UTC `datetime` from microseconds since the Unix epoch. -/
def fromEpochUs (e : ℤ) : PyDateTime :=
  let days : ℤ := e / 86400000000
  let rem : ℕ := (e % 86400000000).toNat
  let sod : ℕ := rem / 1000000
  let c := civilFromDays days
  { year := c.1.toNat, month := c.2.1, day := c.2.2,
    hour := sod / 3600, minute := sod % 3600 / 60, second := sod % 60,
    microsecond := rem % 1000000, tzOffset := some 0 }

/-- Microseconds since the Unix epoch denoted by a `datetime` (a naive value
is read at face value, matching how Python compares/arithmetizes after the
code has made everything aware). -/
def toEpochUs (dt : PyDateTime) : ℤ :=
  daysFromCivil dt.year dt.month dt.day * 86400000000
    + ((dt.hour * 3600 + dt.minute * 60 + dt.second : ℕ) : ℤ) * 1000000
    + (dt.microsecond : ℤ) - (dt.tzOffset.getD 0) * 1000000

/-- `dt.astimezone(timezone.utc)` for an aware `dt`: same instant, fields
re-expressed in UTC. -/
def astimezoneUtc (dt : PyDateTime) : PyDateTime := fromEpochUs (toEpochUs dt)

/-- Floor of a rational as an integer (`q.num / q.den` with Lean's
Euclidean division, which floors for the positive denominator). -/
def ratFloor (q : ℚ) : ℤ := q.num / (q.den : ℤ)

/-- `datetime.fromtimestamp(v, tz=timezone.utc)`.  Python raises `ValueError`
when the resulting year falls outside `[1, 9999]`; fractional seconds are
taken to microsecond precision. -/
def fromtimestampUtc (v : ℚ) : Except PyErr PyDateTime :=
  let dt := fromEpochUs (ratFloor (v * 1000000))
  if 1 ≤ dt.year ∧ dt.year ≤ 9999 then .ok dt
  else .error (.valueError "year out of range")

/-- Whitespace for Python `str.strip` (ASCII portion). -/
def isPySpace (c : Char) : Bool :=
  c = ' ' || c = '\t' || c = '\n' || c = '\r' || c = '\x0b' || c = '\x0c'

/-- Python `str.strip()`. -/
def pyStrip (s : List Char) : List Char :=
  ((s.dropWhile isPySpace).reverse.dropWhile isPySpace).reverse

/-- `pat` occurs at the head of `l`. -/
def leadsWith : List Char → List Char → Bool
  | [], _ => true
  | _ :: _, [] => false
  | p :: ps, c :: cs => p = c && leadsWith ps cs

def replaceAux (pat rep : List Char) : ℕ → List Char → List Char
  | 0, l => l
  | _ + 1, [] => []
  | fuel + 1, c :: rest =>
    if leadsWith pat (c :: rest) then
      rep ++ replaceAux pat rep fuel ((c :: rest).drop pat.length)
    else
      c :: replaceAux pat rep fuel rest

/-- Python `s.replace(pat, rep)` for non-empty `pat` (left-to-right,
non-overlapping). -/
def pyReplace (s pat rep : List Char) : List Char := replaceAux pat rep s.length s

/-- The characters of `"+00:00"`, the offset suffix `parse_timestamp`
substitutes for a trailing `Z` and the one `format_timestamp` replaces
with `"Z"`. -/
def utcSuffix : List Char := ['+', '0', '0', ':', '0', '0']

/-- The offset suffix `datetime.isoformat` prints for an aware datetime:
`±HH:MM`, with `:SS` appended only when the offset has a seconds part. -/
def offsetChars (off : ℤ) : List Char :=
  let sign : Char := if off < 0 then '-' else '+'
  let a : ℕ := off.natAbs
  sign :: print2 (a / 3600) ++ ':' :: print2 (a % 3600 / 60)
    ++ (if a % 60 = 0 then [] else ':' :: print2 (a % 60))

/-- `datetime.isoformat()` without the offset suffix: the fractional part is
printed (six digits) only when `microsecond` is non-zero. -/
def isoBody (dt : PyDateTime) : List Char :=
  print4 dt.year ++ '-' :: print2 dt.month ++ '-' :: print2 dt.day
    ++ 'T' :: print2 dt.hour ++ ':' :: print2 dt.minute ++ ':' :: print2 dt.second
    ++ (if dt.microsecond = 0 then [] else '.' :: print6 dt.microsecond)

/-- `datetime.isoformat()`. -/
def isoformat (dt : PyDateTime) : List Char :=
  isoBody dt ++ (match dt.tzOffset with | none => [] | some off => offsetChars off)

/-- `format_timestamp` (common.py):
`ts.astimezone(timezone.utc).isoformat().replace("+00:00", "Z")`. -/
def format_timestamp (ts : PyDateTime) : List Char :=
  pyReplace (isoformat (astimezoneUtc ts)) utcSuffix ['Z']

/-- A parsed UTC offset is accepted by `datetime.timezone` when its magnitude
is below 24 hours. -/
def offsetOk : Option ℤ → Bool
  | none => true
  | some o => o.natAbs < 86400

/-- Field-range validation performed by `datetime.fromisoformat` when it
constructs the `datetime`. -/
def mkParsed (y mo d h mi s us : ℕ) (off : Option ℤ) : Option PyDateTime :=
  if 1 ≤ y ∧ y ≤ 9999 ∧ 1 ≤ mo ∧ mo ≤ 12 ∧ 1 ≤ d ∧ d ≤ daysInMonth y mo
      ∧ h ≤ 23 ∧ mi ≤ 59 ∧ s ≤ 59 ∧ us ≤ 999999 ∧ offsetOk off = true then
    some ⟨y, mo, d, h, mi, s, us, off⟩
  else none

/-- Trailing offset of an ISO string: empty (naive), or `±HH:MM`,
optionally `±HH:MM:SS`. -/
def parseOffsetEnd (cs : List Char) : Option (Option ℤ) :=
  match cs with
  | [] => some none
  | sign :: h1 :: h2 :: k :: m1 :: m2 :: rest =>
    if (sign = '+' ∨ sign = '-') ∧ k = ':' then
      match parse2 h1 h2, parse2 m1 m2 with
      | some h, some m =>
        match rest with
        | [] =>
          let total : ℤ := (h : ℤ) * 3600 + (m : ℤ) * 60
          some (some (if sign = '-' then -total else total))
        | k2 :: s1 :: s2 :: [] =>
          if k2 = ':' then
            match parse2 s1 s2 with
            | some s =>
              let total : ℤ := (h : ℤ) * 3600 + (m : ℤ) * 60 + (s : ℤ)
              some (some (if sign = '-' then -total else total))
            | none => none
          else none
        | _ => none
      | _, _ => none
    else none
  | _ => none

/-- Seconds-and-beyond tail of the time part: `[.fff[fff]]` then the offset. -/
def parseFracAndOffset (rest4 : List Char) (y mo d h mi s : ℕ) : Option PyDateTime :=
  match rest4.span (fun c => (digitVal? c).isSome) with
  | (digs, restOff) =>
    if digs.length = 6 then
      match parseDigits digs, parseOffsetEnd restOff with
      | some us, some off => mkParsed y mo d h mi s us off
      | _, _ => none
    else if digs.length = 3 then
      match parseDigits digs, parseOffsetEnd restOff with
      | some ms, some off => mkParsed y mo d h mi s (ms * 1000) off
      | _, _ => none
    else none

/-- Model of `datetime.fromisoformat`: positional
`YYYY-MM-DD[<sep>HH:MM[:SS[.fff[fff]]]][±HH:MM[:SS]]` parsing with field
validation (the grammar accepted before Python 3.11; any single separator
character is allowed). -/
def parseIso (cs : List Char) : Option PyDateTime :=
  match cs with
  | y1 :: y2 :: y3 :: y4 :: k1 :: mo1 :: mo2 :: k2 :: d1 :: d2 :: rest =>
    if k1 = '-' ∧ k2 = '-' then
      match parse4 y1 y2 y3 y4, parse2 mo1 mo2, parse2 d1 d2 with
      | some y, some mo, some d =>
        match rest with
        | [] => mkParsed y mo d 0 0 0 0 none
        | _ :: h1 :: h2 :: k3 :: mi1 :: mi2 :: rest2 =>
          if k3 = ':' then
            match parse2 h1 h2, parse2 mi1 mi2 with
            | some h, some mi =>
              match rest2 with
              | k4 :: s1 :: s2 :: rest3 =>
                if k4 = ':' then
                  match parse2 s1 s2 with
                  | some s =>
                    match rest3 with
                    | [] => mkParsed y mo d h mi s 0 none
                    | k5 :: rest4 =>
                      if k5 = '.' then parseFracAndOffset rest4 y mo d h mi s
                      else
                        match parseOffsetEnd rest3 with
                        | some off => mkParsed y mo d h mi s 0 off
                        | none => none
                  | none => none
                else
                  match parseOffsetEnd rest2 with
                  | some off => mkParsed y mo d h mi 0 0 off
                  | none => none
              | _ =>
                match parseOffsetEnd rest2 with
                | some off => mkParsed y mo d h mi 0 0 off
                | none => none
            | _, _ => none
          else none
        | _ => none
      | _, _, _ => none
    else none
  | _ => none


/-- The string preprocessing of `parse_timestamp` (common.py): strip, then
rewrite a trailing `Z` to `+00:00`. -/
def preprocessTs (s : List Char) : List Char :=
  let text := pyStrip s
  if text.getLast? = some 'Z' then text.dropLast ++ utcSuffix else text

/-- String branch of `parse_timestamp` (common.py, lines 75-86). -/
def parseStrTimestamp (s : List Char) : Except PyErr PyDateTime :=
  match parseIso (preprocessTs s) with
  | none => .error (.marketDataError "Invalid timestamp format received")
  | some dt =>
    if dt.tzOffset = none then .ok { dt with tzOffset := some 0 } else .ok dt

/-- `parse_timestamp` (common.py).  A Python `bool` is an `int` instance and
takes the numeric branch. -/
def parse_timestamp : JValue → Except PyErr PyDateTime
  | .bool b => fromtimestampUtc (if b then 1 else 0)
  | .num q => if q > 10 ^ 12 then fromtimestampUtc (q / 1000) else fromtimestampUtc q
  | .str s => parseStrTimestamp s.data
  | _ => .error (.marketDataError "Unsupported timestamp value")

/-- First binding of a key in a decoded JSON object (keys are unique after
`json.loads`). -/
def lookupField : List (String × JValue) → String → Option JValue
  | [], _ => none
  | (k, v) :: rest, key => if k = key then some v else lookupField rest key

/-- `mapping.get(key)` on a decoded payload: a missing key and a JSON `null`
value both give the Python object `None`. -/
def pyGet (o : List (String × JValue)) (key : String) : Option JValue :=
  match lookupField o key with
  | some .null => none
  | some v => some v
  | none => none

/-- Python truthiness of a decoded JSON value. -/
def pyTruthy : JValue → Bool
  | .null => false
  | .bool b => b
  | .num q => if q = 0 then false else true
  | .str s => if s = "" then false else true
  | .arr xs => !xs.isEmpty
  | .obj fs => !fs.isEmpty

/-- Truthiness of a value-or-`None`. -/
def truthyO : Option JValue → Bool
  | none => false
  | some v => pyTruthy v

/-- Python `a or b` on values-or-`None`: first operand when truthy,
otherwise the second operand (whatever it is). -/
def orJ (a b : Option JValue) : Option JValue := if truthyO a then a else b

/-- Python `float(str)` for plain decimal literals: optional surrounding
whitespace, optional sign, `digits[.digits]` / `.digits` / `digits.`
(exponent notation is not exercised by the code's payloads and is not
modelled). -/
def parseFloatStr (s : List Char) : Option ℚ :=
  let t := pyStrip s
  let signAndRest : Bool × List Char :=
    match t with
    | '-' :: r => (true, r)
    | '+' :: r => (false, r)
    | r => (false, r)
  let ipSplit := signAndRest.2.span (fun c => (digitVal? c).isSome)
  let finish (q : ℚ) : Option ℚ := some (if signAndRest.1 then -q else q)
  match ipSplit.2 with
  | [] =>
    if ipSplit.1 = [] then none
    else do
      let n ← parseDigits ipSplit.1
      finish n
  | '.' :: fp =>
    let fdSplit := fp.span (fun c => (digitVal? c).isSome)
    if fdSplit.2 = [] ∧ (ipSplit.1 ≠ [] ∨ fdSplit.1 ≠ []) then do
      let i ← parseDigits ipSplit.1
      let f ← parseDigits fdSplit.1
      finish ((i : ℚ) + (f : ℚ) / (10 : ℚ) ^ fdSplit.1.length)
    else none
  | _ => none

/-- Python `float(value)` on a decoded JSON value (`TypeError`/`ValueError`
gives `none`; `bool` is an `int` instance). -/
def pyFloat : JValue → Option ℚ
  | .num q => some q
  | .bool b => some (if b then 1 else 0)
  | .str s => parseFloatStr s.data
  | _ => none

/-- `_parse_float` (common.py): `mapping.get(key)`, `None` ↦ `None`, then
`float(value)` with parse failure tolerated as `None`. -/
def parse_float (o : List (String × JValue)) (key : String) : Option ℚ :=
  match pyGet o key with
  | none => none
  | some v => pyFloat v

/-- Python `a or b` on floats-or-`None`: `0.0` is falsy, so a parsed `0.0`
in the first operand falls through to the second. -/
def orF (a b : Option ℚ) : Option ℚ :=
  match a with
  | some q => if q = 0 then b else some q
  | none => b

/-- `OHLCBar` (common.py).  The Python dataclass field `open` is a reserved
word in Lean and is embedded as `open_`, matching the local name the code
itself uses. -/
structure OHLCBar where
  timestamp : PyDateTime
  open_ : ℚ
  high : ℚ
  low : ℚ
  close : ℚ
  volume : Option ℚ := none
deriving Repr, DecidableEq

/-- `build_bar` (common.py): timestamp alias chain via Python `or`, price
fields via `_parse_float(raw, primary) or _parse_float(raw, alias)`. -/
def build_bar (raw : List (String × JValue)) : Except PyErr OHLCBar :=
  let timestamp_value :=
    orJ (orJ (orJ (orJ (pyGet raw "timestamp") (pyGet raw "time"))
      (pyGet raw "openTimestamp")) (pyGet raw "startTimestamp")) (pyGet raw "utcTimestamp")
  match timestamp_value with
  | none => .error (.marketDataError "Trendbar payload missing timestamp field.")
  | some tv =>
    match parse_timestamp tv with
    | .error e => .error e
    | .ok timestamp =>
      let open_ := orF (parse_float raw "open") (parse_float raw "openPrice")
      let high := orF (parse_float raw "high") (parse_float raw "highPrice")
      let low := orF (parse_float raw "low") (parse_float raw "lowPrice")
      let close := orF (parse_float raw "close") (parse_float raw "closePrice")
      match open_, high, low, close with
      | some o, some h, some l, some c =>
        .ok { timestamp := timestamp, open_ := o, high := h, low := l, close := c,
              volume := parse_float raw "volume" }
      | _, _, _, _ => .error (.marketDataError "Trendbar payload missing OHLC fields.")

/-- `looks_like_trendbar` (common.py): the key set contains
`{open, high, low, close}` or `{openPrice, highPrice, lowPrice, closePrice}`
(raw keys; a `null` value still counts as a present key). -/
def looks_like_trendbar (candidate : List (String × JValue)) : Bool :=
  let keys := candidate.map Prod.fst
  (["open", "high", "low", "close"].all keys.contains)
    || (["openPrice", "highPrice", "lowPrice", "closePrice"].all keys.contains)

/-- Keep only the JSON objects of a list (`isinstance(item, Mapping)`). -/
def onlyObjs (xs : List JValue) : List (List (String × JValue)) :=
  xs.filterMap (fun v => match v with | .obj o => some o | _ => none)

/-- `ensure_iterable` (common.py) applied to a `payload.get(...)` result:
`None ↦ []`, one mapping ↦ singleton, an iterable ↦ its mapping items
(a string iterates over characters, none of which are mappings), anything
else ↦ `[]`. -/
def ensure_iterable : Option JValue → List (List (String × JValue))
  | none => []
  | some (.obj o) => [o]
  | some (.arr xs) => onlyObjs xs
  | some _ => []

/-- First key in `keys` whose value in the payload is a JSON list. -/
def firstListOf (o : List (String × JValue)) : List String → Option (List JValue)
  | [] => none
  | k :: ks =>
    match pyGet o k with
    | some (.arr xs) => some xs
    | _ => firstListOf o ks

/-- `_extract_trendbars` (rest.py): try the envelope keys
`data`/`trendbars`/`bars`/`items`, then a `trendbar` list, then the payload
itself when it looks like one bar; a list payload is filtered; anything else
raises `CTraderMarketDataError`. -/
def extract_trendbars (payload : JValue) : Except PyErr (List (List (String × JValue))) :=
  match payload with
  | .obj o =>
    match firstListOf o ["data", "trendbars", "bars", "items"] with
    | some xs => .ok (onlyObjs xs)
    | none =>
      match pyGet o "trendbar" with
      | some (.arr xs) => .ok (onlyObjs xs)
      | _ =>
        if looks_like_trendbar o then .ok [o]
        else .error (.marketDataError "cTrader response did not contain any trendbars.")
  | .arr xs => .ok (onlyObjs xs)
  | _ => .error (.marketDataError "cTrader response did not contain any trendbars.")

/-- Python `str.upper()` (ASCII portion, which is all the code feeds it). -/
def pyUpper (s : String) : String := String.mk (s.data.map Char.toUpper)

/-- Ordering of bars by their timestamp instant — the order Python's
`bars.sort(key=lambda bar: bar.timestamp)` uses on aware datetimes. -/
def barLe (a b : OHLCBar) : Prop := toEpochUs a.timestamp ≤ toEpochUs b.timestamp

instance : DecidableRel barLe := fun x y =>
  inferInstanceAs (Decidable (toEpochUs x.timestamp ≤ toEpochUs y.timestamp))

instance : IsTotal OHLCBar barLe := ⟨fun x y => Int.le_total (toEpochUs x.timestamp) (toEpochUs y.timestamp)⟩

instance : IsTrans OHLCBar barLe := ⟨fun _ _ _ hab hbc => le_trans hab hbc⟩

/-- `bars.sort(key=lambda bar: bar.timestamp)` — a stable sort by timestamp. -/
def sortBars (bars : List OHLCBar) : List OHLCBar := List.insertionSort barLe bars

/-- The upstream answer to the one REST request `fetch_ohlc_data` issues.
`networkFailure` models `requests.RequestException`; a `response` carries the
HTTP status and the decoded JSON body (`none` when the body is not JSON). -/
inductive RestResponse where
  | networkFailure
  | response (status : ℕ) (body : Option JValue)

/-- The `timeframe`/`limit` query parameters of the trendbars request. -/
structure TrendbarRequest where
  timeframe : String
  limit : ℤ
deriving Repr, DecidableEq

/-- The argument validation `fetch_ohlc_data` (rest.py, lines 34-39)
performs before contacting the network: empty token, empty symbol and
non-positive limit each raise `ValueError`.  No other validation exists —
in particular the timeframe string is only upper-cased. -/
def fetch_validate (access_token symbol : String) (limit : ℤ) : Option PyErr :=
  if access_token = "" then
    some (.valueError "An OAuth access token is required to query cTrader.")
  else if symbol = "" then
    some (.valueError "A symbol must be supplied when requesting OHLC data.")
  else if limit ≤ 0 then
    some (.valueError "The number of trendbars requested must be positive.")
  else none

/-- The query parameters of the upstream request `fetch_ohlc_data` issues
once validation passes (rest.py, lines 41-43). -/
def fetch_request_params (access_token symbol timeframe : String) (limit : ℤ) :
    Except PyErr TrendbarRequest :=
  match fetch_validate access_token symbol limit with
  | some e => .error e
  | none => .ok ⟨pyUpper timeframe, limit⟩

/-- `fetch_ohlc_data` (rest.py), with the network modelled as the
`RestResponse` oracle argument: validate, issue the request, reject
status ≥ 400 and non-JSON bodies, extract and normalize the bars, sort by
timestamp and keep the last `limit` entries (`bars[-limit:]`). -/
def fetch_ohlc_data (access_token symbol timeframe : String) (limit : ℤ)
    (resp : RestResponse) : Except PyErr (List OHLCBar) :=
  match fetch_request_params access_token symbol timeframe limit with
  | .error e => .error e
  | .ok _ =>
    match resp with
    | .networkFailure =>
      .error (.marketDataError "Unable to contact the cTrader trendbars endpoint.")
    | .response status body =>
      if 400 ≤ status then
        .error (.marketDataError "cTrader API call failed")
      else
        match body with
        | none => .error (.marketDataError "Unable to parse JSON response from cTrader.")
        | some payload =>
          match extract_trendbars payload with
          | .error e => .error e
          | .ok raw_bars =>
            match raw_bars.mapM build_bar with
            | .error e => .error e
            | .ok bars =>
              let sorted := sortBars bars
              .ok (sorted.drop (sorted.length - limit.toNat))

/-- One iteration of the `while True` connection loop of `stream_ohlc_data`
(streaming.py, lines 67-108).  `failConnect`: an exception was raised before
the post-subscribe `reconnect_delay = 1.0` reset (connect or the
authenticate/subscribe sends failed).  `streamThen bars`: the connection was
established and the authenticate and subscribe frames were sent (so the
delay was reset), then `bars` were parsed from inbound data frames in order,
and the iteration ended with a caught exception (connection loss, upstream
or parse error — all `except` arms behave identically). -/
inductive ConnAttempt where
  | failConnect
  | streamThen (bars : List OHLCBar)

/-- The watermark filter of the `async for` body (streaming.py, lines
89-98): a bar not newer than `last_timestamp` is skipped, any other bar
advances the watermark and is yielded.  Returns the final watermark and the
yielded bars.  (An aware `datetime` is always truthy, so the Python guard
`last_timestamp and bar.timestamp <= last_timestamp` tests exactly
"watermark present and bar not newer".) -/
def processFrames : Option PyDateTime → List OHLCBar → Option PyDateTime × List OHLCBar
  | w, [] => (w, [])
  | w, b :: rest =>
    match w with
    | some t =>
      if toEpochUs b.timestamp ≤ toEpochUs t then
        processFrames (some t) rest
      else
        let r := processFrames (some b.timestamp) rest
        (r.1, b :: r.2)
    | none =>
      let r := processFrames (some b.timestamp) rest
      (r.1, b :: r.2)

/-- The connection loop of `stream_ohlc_data` over a finite prefix of
iteration outcomes, threading the watermark and `reconnect_delay`
(initially 1; every iteration ends with `sleep(reconnect_delay)` followed by
`reconnect_delay = min(reconnect_delay * 2, 30)`; a successful
authenticate+subscribe resets it to 1 before the sleep).  Returns the bars
yielded downstream and the slept delays, in order. -/
def runAttempts : Option PyDateTime → ℕ → List ConnAttempt → List OHLCBar × List ℕ
  | _, _, [] => ([], [])
  | w, delay, .failConnect :: rest =>
    let r := runAttempts w (min (2 * delay) 30) rest
    (r.1, delay :: r.2)
  | w, _, .streamThen bars :: rest =>
    let p := processFrames w bars
    let r := runAttempts p.1 (min (2 * 1) 30) rest
    (p.2 ++ r.1, 1 :: r.2)

/-- Observable trace of one streaming session: the bars yielded to the
consumer, the reconnect delays slept, and the error that escaped the
generator, if any. -/
structure SessionTrace where
  events : List OHLCBar
  sleeps : List ℕ
  terminal : Option PyErr
deriving Repr, DecidableEq

/-- `stream_ohlc_data` (streaming.py) over a finite observation prefix.
`history` is the result of `_fetch_initial_history` — its error propagates
out of the generator before the connection loop starts (nothing catches it).
Otherwise every history bar is yielded as-is, the watermark is seeded with
the last history bar's timestamp (`None` when the history is empty), and
the connection loop runs with `reconnect_delay = 1.0`. -/
def stream_ohlc_data (history : Except PyErr (List OHLCBar))
    (attempts : List ConnAttempt) : SessionTrace :=
  match history with
  | .error e => ⟨[], [], some e⟩
  | .ok initial_bars =>
    let last_timestamp := (initial_bars.getLast?).map (·.timestamp)
    let r := runAttempts last_timestamp 1 attempts
    ⟨initial_bars ++ r.1, r.2, none⟩

/-! ## Theorems -/

set_option maxRecDepth 8000

theorem fetch_request_params_ok {tok sym tf : String} {limit : ℤ} {p : TrendbarRequest}
    (h : fetch_request_params tok sym tf limit = .ok p) :
    0 < limit ∧ p = ⟨pyUpper tf, limit⟩ := by
  unfold fetch_request_params fetch_validate at h
  by_cases h1 : tok = "" <;> simp [h1] at h
  by_cases h2 : sym = "" <;> simp [h2] at h
  by_cases h3 : limit ≤ 0 <;> simp [h3] at h
  exact ⟨by omega, h.symm⟩

/-- C3 (amended): `fetch_ohlc_data` performs no validation of the timeframe
string at all.  For every timeframe string — recognized or not — as long as
the token and symbol are non-empty and the limit is positive, validation
succeeds and the upstream request is built with the upper-cased timeframe
passed through verbatim; no `ValueError` is raised for an unrecognized
timeframe such as `"X9"`. -/
theorem fetch_timeframe_never_validated (tok sym tf : String) (limit : ℤ)
    (htok : tok ≠ "") (hsym : sym ≠ "") (hlim : 0 < limit) :
    fetch_request_params tok sym tf limit = .ok ⟨pyUpper tf, limit⟩ := by
  unfold fetch_request_params fetch_validate
  simp [htok, hsym, show ¬(limit ≤ 0) by omega]

theorem fetch_timeframe_never_validated_witness :
    fetch_request_params "token" "EURUSD" "X9" 100 = .ok ⟨pyUpper "X9", 100⟩
      ∧ pyUpper "X9" = "X9" :=
  ⟨fetch_timeframe_never_validated "token" "EURUSD" "X9" 100
    (by decide) (by decide) (by decide), by decide⟩

/-- C3 counterexample: calling `fetch_ohlc_data` with the unrecognized
timeframe `"X9"` does not fail with `ValueError`; the upstream request is
issued (with `timeframe=X9`) and its bars are returned, contradicting the
claim that such calls fail with `InvalidArgument` without contacting the
upstream. -/
theorem fetch_unknown_timeframe_succeeds :
    fetch_ohlc_data "token" "EURUSD" "X9" 1 (.response 200 (some (.obj [("data", .arr
        [.obj [("timestamp", .num 1704067200), ("open", .num 1), ("high", .num 2),
               ("low", .num 1), ("close", .num 2)]])])))
      = .ok [⟨⟨2024, 1, 1, 0, 0, 0, 0, some 0⟩, 1, 2, 1, 2, none⟩] := by
  with_unfolding_all decide

/-- C5 (amended): an error during the initial history fetch escapes the
generator before any bar is emitted and terminates the session, while no
error inside the connection loop is ever terminal — every loop iteration
outcome, including a failure of the very first connection attempt before any
successful connection exists, leads to a backoff sleep and a further
attempt. -/
theorem stream_error_locus :
    (∀ (e : PyErr) (attempts : List ConnAttempt),
        stream_ohlc_data (.error e) attempts = ⟨[], [], some e⟩)
    ∧ (∀ (hist : List OHLCBar) (attempts : List ConnAttempt),
        (stream_ohlc_data (.ok hist) attempts).terminal = none) := by
  exact ⟨fun e attempts => rfl, fun hist attempts => rfl⟩

/-- C5 counterexample: a session whose very first connection attempt fails —
an upstream/transport error before any successful connection has ever been
established — is not terminal: the loop sleeps 1s, retries, and the next
attempt streams a bar.  This contradicts the claim that errors before the
first successful connection (other than during the history fetch) are
terminal. -/
theorem stream_first_attempt_error_not_terminal :
    stream_ohlc_data (.ok [])
        [.failConnect, .streamThen [⟨⟨1970, 1, 1, 0, 0, 1, 0, some 0⟩, 1, 1, 1, 1, none⟩]]
      = ⟨[⟨⟨1970, 1, 1, 0, 0, 1, 0, some 0⟩, 1, 1, 1, 1, none⟩], [1, 1], none⟩ := by
  with_unfolding_all decide

/-- C8 (amended): for a numeric timestamp `t` with `t * 1000 > 10^12`
(so the millisecond form takes the divide-by-1000 branch) and `t ≤ 10^12`
(so the plain form is read as epoch seconds rather than being divided
again), `parse_timestamp (t * 1000)` and `parse_timestamp t` agree
exactly. -/
theorem parse_timestamp_ms_seconds_agree (t : ℚ)
    (h1 : t * 1000 > 10 ^ 12) (h2 : t ≤ 10 ^ 12) :
    parse_timestamp (.num (t * 1000)) = parse_timestamp (.num t) := by
  simp only [parse_timestamp]
  rw [if_pos h1, if_neg (not_lt.mpr h2),
    mul_div_cancel_right₀ t (by norm_num : (1000 : ℚ) ≠ 0)]

theorem parse_timestamp_ms_seconds_agree_witness :
    parse_timestamp (.num (2 * 10 ^ 9 * 1000)) = parse_timestamp (.num (2 * 10 ^ 9)) :=
  parse_timestamp_ms_seconds_agree (2 * 10 ^ 9) (by norm_num) (by norm_num)

/-- C8 counterexample: for `t = 2·10^12` the hypothesis `t * 1000 > 10^12`
of the claim holds, yet `parse_timestamp (t * 1000)` (one division, `2·10^12`
epoch seconds, year far beyond 9999, a `ValueError`) differs from
`parse_timestamp t` (which is itself above the threshold, is divided again
and lands in 2033), refuting the claim for all numeric `t`. -/
theorem parse_timestamp_ms_seconds_disagree :
    ¬ (parse_timestamp (.num (2 * 10 ^ 12 * 1000)) = parse_timestamp (.num (2 * 10 ^ 12))) := by
  with_unfolding_all decide

/-- Helper: `parse_timestamp` on the number `0` yields the Unix epoch. -/
theorem parse_ts_num_zero :
    parse_timestamp (.num 0) = .ok ⟨1970, 1, 1, 0, 0, 0, 0, some 0⟩ := by
  with_unfolding_all decide

/-- C7 (amended): `build_bar` yields the identical bar whichever supported
alias carries each value — primary `open/high/low/close` keys versus the
`*Price` aliases, and any of the five timestamp aliases — provided the
timestamp value is truthy and every price is non-zero.  (At a zero price the
`or`-chained lookup makes the two alias sets diverge; see the
counterexample.) -/
theorem build_bar_alias_equivalence (tv : JValue) (o h l c : ℚ)
    (htv : pyTruthy tv = true) (ho : o ≠ 0) (hh : h ≠ 0) (hl : l ≠ 0) (hc : c ≠ 0) :
    (build_bar [("timestamp", tv), ("open", .num o), ("high", .num h), ("low", .num l), ("close", .num c)]
      = build_bar [("timestamp", tv), ("openPrice", .num o), ("highPrice", .num h), ("lowPrice", .num l), ("closePrice", .num c)])
    ∧ (∀ k ∈ (["timestamp", "time", "openTimestamp", "startTimestamp", "utcTimestamp"] : List String),
        build_bar [(k, tv), ("open", .num o), ("high", .num h), ("low", .num l), ("close", .num c)]
          = build_bar [("timestamp", tv), ("open", .num o), ("high", .num h), ("low", .num l), ("close", .num c)]) := by
  constructor
  · cases tv <;>
      simp_all [build_bar, pyGet, lookupField, orJ, truthyO, pyTruthy, parse_float, pyFloat, orF]
  · intro k hk
    fin_cases hk <;> cases tv <;>
      simp_all [build_bar, pyGet, lookupField, orJ, truthyO, pyTruthy, parse_float, pyFloat, orF]

theorem build_bar_alias_equivalence_witness :
    build_bar [("timestamp", .num 1), ("open", .num 1), ("high", .num 1), ("low", .num 1), ("close", .num 1)]
      = build_bar [("timestamp", .num 1), ("openPrice", .num 1), ("highPrice", .num 1), ("lowPrice", .num 1), ("closePrice", .num 1)] :=
  (build_bar_alias_equivalence (.num 1) 1 1 1 1 (by with_unfolding_all decide)
    (by norm_num) (by norm_num) (by norm_num) (by norm_num)).1

/-- C7 counterexample: with an `open` value of `0.0` the primary-key payload
is rejected (`0.0 or None` is `None`) while the otherwise-identical
`*Price`-alias payload is accepted with `open = 0.0`, so alias choice is
observable and the claimed equivalence fails for this valid payload. -/
theorem build_bar_alias_zero_divergence :
    build_bar [("timestamp", .num 1), ("open", .num 0), ("high", .num 1), ("low", .num 1), ("close", .num 1)]
        = .error (.marketDataError "Trendbar payload missing OHLC fields.")
      ∧ build_bar [("timestamp", .num 1), ("openPrice", .num 0), ("highPrice", .num 1), ("lowPrice", .num 1), ("closePrice", .num 1)]
        = .ok ⟨⟨1970, 1, 1, 0, 0, 1, 0, some 0⟩, 0, 1, 1, 1, none⟩ := by
  constructor <;> with_unfolding_all decide

/-- C9 (amended): the `or`-chained lookups treat a present-but-zero value as
absent, except in the chain's last position.  A zero timestamp under
`timestamp`/`time`/`openTimestamp`/`startTimestamp` is rejected as a missing
timestamp; but a zero in `utcTimestamp` — the last alias, returned by `or`
verbatim — passes the `is None` test and produces an epoch-1970 bar.  A
`0.0` under a primary price key falls through to the `*Price` alias and
`build_bar` never returns a bar whose price was supplied solely as `0.0`
under a primary key. -/
theorem build_bar_zero_falsy (o h l c : ℚ)
    (ho : o ≠ 0) (hh : h ≠ 0) (hl : l ≠ 0) (hc : c ≠ 0) :
    (∀ k ∈ (["timestamp", "time", "openTimestamp", "startTimestamp"] : List String),
        ∀ o' h' l' c' : ℚ,
        build_bar [(k, .num 0), ("open", .num o'), ("high", .num h'), ("low", .num l'), ("close", .num c')]
          = .error (.marketDataError "Trendbar payload missing timestamp field."))
    ∧ (build_bar [("utcTimestamp", .num 0), ("open", .num o), ("high", .num h), ("low", .num l), ("close", .num c)]
        = .ok ⟨⟨1970, 1, 1, 0, 0, 0, 0, some 0⟩, o, h, l, c, none⟩)
    ∧ (∀ (raw : List (String × JValue)) (bar : OHLCBar),
        parse_float raw "open" = some 0 → pyGet raw "openPrice" = none →
        build_bar raw ≠ .ok bar) := by
  refine ⟨?_, ?_, ?_⟩
  · intro k hk o' h' l' c'
    fin_cases hk <;>
      simp [build_bar, pyGet, lookupField, orJ, truthyO, pyTruthy]
  · simp [build_bar, pyGet, lookupField, orJ, truthyO, pyTruthy, parse_ts_num_zero,
      parse_float, pyFloat, orF, ho, hh, hl, hc]
  · intro raw bar h1 h2 hok
    simp only [build_bar] at hok
    split at hok
    · exact absurd hok (by simp)
    · split at hok
      · exact absurd hok (by simp)
      · rw [h1] at hok
        rw [show parse_float raw "openPrice" = none by simp [parse_float, h2]] at hok
        simp [orF] at hok

theorem build_bar_zero_falsy_witness :
    build_bar [("utcTimestamp", .num 0), ("open", .num 1), ("high", .num 1), ("low", .num 1), ("close", .num 1)]
      = .ok ⟨⟨1970, 1, 1, 0, 0, 0, 0, some 0⟩, 1, 1, 1, 1, none⟩ :=
  (build_bar_zero_falsy 1 1 1 1 (by norm_num) (by norm_num) (by norm_num) (by norm_num)).2.1

/-- C9 counterexample: a payload whose only timestamp-bearing field is
`utcTimestamp` holding the number `0` is not rejected — the `or` chain
returns its last operand verbatim, `0 is None` is false, and `build_bar`
returns an epoch-1970 bar — contradicting the claim that every
present-but-zero timestamp field is treated as absent. -/
theorem build_bar_utc_zero_not_rejected :
    build_bar [("utcTimestamp", .num 0), ("open", .num 2), ("high", .num 3), ("low", .num 1), ("close", .num 2)]
      = .ok ⟨⟨1970, 1, 1, 0, 0, 0, 0, some 0⟩, 2, 3, 1, 2, none⟩ := by
  with_unfolding_all decide

theorem runAttempts_replicate_fail (w : Option PyDateTime) (n : ℕ) :
    ∀ k, (runAttempts w (min (2 ^ k) 30) (List.replicate n .failConnect)).2
      = (List.range n).map (fun i => min (2 ^ (k + i)) 30) := by
  induction n with
  | zero => intro k; simp [runAttempts]
  | succ n ih =>
    intro k
    rw [List.replicate_succ]
    simp only [runAttempts]
    have hnext : min (2 * min (2 ^ k) 30) 30 = min (2 ^ (k + 1)) 30 := by
      have h1 : 2 ^ (k + 1) = 2 * 2 ^ k := by ring
      omega
    rw [hnext, ih (k + 1), List.range_succ_eq_map, List.map_cons, List.map_map]
    have htail : List.map (fun i => min (2 ^ (k + 1 + i)) 30) (List.range n)
        = List.map ((fun i => min (2 ^ (k + i)) 30) ∘ Nat.succ) (List.range n) := by
      apply List.map_congr_left
      intro i _
      have h2 : k + 1 + i = k + (i + 1) := by omega
      simp [Function.comp, h2]
    rw [htail]
    simp

/-- C4: reconnect backoff.  From a fresh session, consecutive failed
connection attempts sleep `min(2^k, 30)` seconds (1, 2, 4, 8, 16, 30, 30,
...), doubling after every failed attempt and capped at 30s; and after any
successful Connecting-to-Streaming transition (connection established,
authenticate and subscribe frames sent) the delay is reset, whatever it was
before: the sleep following that connection's loss is 1s and subsequent
failed attempts sleep `min(2^(k+1), 30)`. -/
theorem stream_backoff_schedule :
    (∀ (hist : List OHLCBar) (n : ℕ),
        (stream_ohlc_data (.ok hist) (List.replicate n .failConnect)).sleeps
          = (List.range n).map (fun k => min (2 ^ k) 30))
    ∧ (∀ (w : Option PyDateTime) (d : ℕ) (bars : List OHLCBar) (n : ℕ),
        (runAttempts w d (.streamThen bars :: List.replicate n .failConnect)).2
          = 1 :: (List.range n).map (fun k => min (2 ^ (k + 1)) 30)) := by
  constructor
  · intro hist n
    show (runAttempts ((hist.getLast?).map (·.timestamp)) 1 (List.replicate n .failConnect)).2 = _
    have h := runAttempts_replicate_fail ((hist.getLast?).map (·.timestamp)) n 0
    norm_num at h
    rw [h]
  · intro w d bars n
    simp only [runAttempts]
    have h := runAttempts_replicate_fail (processFrames w bars).1 n 1
    norm_num at h ⊢
    rw [h]
    apply List.map_congr_left
    intro i _
    congr 2
    omega

/-- Invariant tying the watermark to everything emitted so far: while the
watermark is unset nothing was emitted, and once set it bounds every emitted
bar's timestamp. -/
def wmBound : Option PyDateTime → List OHLCBar → Prop
  | none, l => l = []
  | some t, l => ∀ b ∈ l, toEpochUs b.timestamp ≤ toEpochUs t

theorem processFrames_sorted (bars : List OHLCBar) :
    ∀ (w : Option PyDateTime) (acc : List OHLCBar),
      List.Sorted barLe acc → wmBound w acc →
      List.Sorted barLe (acc ++ (processFrames w bars).2)
        ∧ wmBound (processFrames w bars).1 (acc ++ (processFrames w bars).2) := by
  induction bars with
  | nil =>
    intro w acc h1 h2
    simpa [processFrames] using ⟨h1, h2⟩
  | cons b rest ih =>
    intro w acc h1 h2
    match w with
    | some t =>
      by_cases hb : toEpochUs b.timestamp ≤ toEpochUs t
      · simpa [processFrames, hb] using ih (some t) acc h1 h2
      · have hlt : toEpochUs t < toEpochUs b.timestamp := by omega
        have hacc : List.Sorted barLe (acc ++ [b]) := by
          rw [List.Sorted, List.pairwise_append]
          refine ⟨h1, by simp, ?_⟩
          intro x hx y hy
          simp only [List.mem_singleton] at hy
          subst hy
          have hxb := h2 x hx
          show toEpochUs x.timestamp ≤ toEpochUs y.timestamp
          omega
        have hbnd : wmBound (some b.timestamp) (acc ++ [b]) := by
          intro x hx
          rcases List.mem_append.mp hx with hx' | hx'
          · have := h2 x hx'
            omega
          · simp only [List.mem_singleton] at hx'
            subst hx'
            exact le_refl _
        have hres := ih (some b.timestamp) (acc ++ [b]) hacc hbnd
        constructor
        · have := hres.1
          simpa [processFrames, hb, List.append_assoc] using this
        · have := hres.2
          simpa [processFrames, hb, List.append_assoc] using this
    | none =>
      have hacc0 : acc = [] := h2
      subst hacc0
      have hres := ih (some b.timestamp) [b] (by simp [List.Sorted]) ?_
      · constructor
        · have := hres.1
          simpa [processFrames] using this
        · have := hres.2
          simpa [processFrames] using this
      · intro x hx
        simp only [List.mem_singleton] at hx
        subst hx
        exact le_refl _

theorem runAttempts_sorted (attempts : List ConnAttempt) :
    ∀ (w : Option PyDateTime) (d : ℕ) (acc : List OHLCBar),
      List.Sorted barLe acc → wmBound w acc →
      List.Sorted barLe (acc ++ (runAttempts w d attempts).1) := by
  induction attempts with
  | nil =>
    intro w d acc h1 _
    simpa [runAttempts] using h1
  | cons a rest ih =>
    intro w d acc h1 h2
    cases a with
    | failConnect =>
      simpa [runAttempts] using ih w (min (2 * d) 30) acc h1 h2
    | streamThen bars =>
      have hp := processFrames_sorted bars w acc h1 h2
      have := ih (processFrames w bars).1 (min (2 * 1) 30)
        (acc ++ (processFrames w bars).2) hp.1 hp.2
      simpa [runAttempts, List.append_assoc] using this

theorem getLastQ_mem {α : Type} : ∀ (l : List α) (x : α), l.getLast? = some x → x ∈ l
  | [], _, h => by simp at h
  | [a], x, h => by
    simp only [List.getLast?_singleton, Option.some.injEq] at h
    simp [h.symm]
  | _ :: c :: cs, x, h => by
    rw [List.getLast?_cons_cons] at h
    exact List.mem_cons_of_mem _ (getLastQ_mem (c :: cs) x h)

theorem sorted_wmBound_getLast :
    ∀ (hist : List OHLCBar), List.Sorted barLe hist →
      wmBound ((hist.getLast?).map (·.timestamp)) hist := by
  intro hist
  induction hist with
  | nil => intro _; rfl
  | cons a rest ih =>
    intro hs
    rcases List.sorted_cons.mp hs with ⟨ha, hrest⟩
    cases rest with
    | nil =>
      intro x hx
      simp only [List.mem_singleton] at hx
      subst hx
      exact le_refl _
    | cons c cs =>
      have hbnd := ih hrest
      rw [List.getLast?_cons_cons]
      cases hg : (c :: cs).getLast? with
      | none => exact absurd (List.getLast?_eq_none_iff.mp hg) (by simp)
      | some x =>
        rw [hg] at hbnd
        intro y hy
        rcases List.mem_cons.mp hy with hy' | hy'
        · subst hy'
          exact ha x (getLastQ_mem _ _ hg)
        · exact hbnd y hy'

/-- C1: watermark deduplication and ordering.  With the watermark at `T`,
an inbound bar timestamped `≤ T` is discarded and leaves the watermark
unchanged; a bar timestamped `> T` is emitted and advances the watermark to
its timestamp.  Consequently, for a sorted history seed (as
`fetch_ohlc_data` produces), the entire emitted sequence — history seed
followed by live bars across all reconnects, the watermark never being
reset — is non-decreasing by timestamp. -/
theorem stream_watermark_ordering :
    (∀ (T : PyDateTime) (b : OHLCBar) (rest : List OHLCBar),
        toEpochUs b.timestamp ≤ toEpochUs T →
        processFrames (some T) (b :: rest) = processFrames (some T) rest)
    ∧ (∀ (T : PyDateTime) (b : OHLCBar) (rest : List OHLCBar),
        toEpochUs T < toEpochUs b.timestamp →
        processFrames (some T) (b :: rest)
          = ((processFrames (some b.timestamp) rest).1,
             b :: (processFrames (some b.timestamp) rest).2))
    ∧ (∀ (hist : List OHLCBar) (attempts : List ConnAttempt),
        List.Sorted barLe hist →
        List.Sorted barLe (stream_ohlc_data (.ok hist) attempts).events) := by
  refine ⟨?_, ?_, ?_⟩
  · intro T b rest hb
    simp [processFrames, hb]
  · intro T b rest hb
    simp [processFrames, show ¬ toEpochUs b.timestamp ≤ toEpochUs T by omega]
  · intro hist attempts hs
    show List.Sorted barLe (hist ++ (runAttempts ((hist.getLast?).map (·.timestamp)) 1 attempts).1)
    exact runAttempts_sorted attempts _ 1 hist hs (sorted_wmBound_getLast hist hs)

theorem stream_watermark_ordering_witness :
    processFrames (some ⟨1970, 1, 1, 0, 0, 2, 0, some 0⟩)
        [⟨⟨1970, 1, 1, 0, 0, 1, 0, some 0⟩, 1, 1, 1, 1, none⟩]
      = processFrames (some ⟨1970, 1, 1, 0, 0, 2, 0, some 0⟩) []
    ∧ processFrames (some ⟨1970, 1, 1, 0, 0, 2, 0, some 0⟩)
        [⟨⟨1970, 1, 1, 0, 0, 3, 0, some 0⟩, 1, 1, 1, 1, none⟩]
      = ((processFrames (some ⟨1970, 1, 1, 0, 0, 3, 0, some 0⟩) []).1,
         ⟨⟨1970, 1, 1, 0, 0, 3, 0, some 0⟩, 1, 1, 1, 1, none⟩
           :: (processFrames (some ⟨1970, 1, 1, 0, 0, 3, 0, some 0⟩) []).2)
    ∧ List.Sorted barLe
        (stream_ohlc_data (.ok [⟨⟨1970, 1, 1, 0, 0, 1, 0, some 0⟩, 1, 1, 1, 1, none⟩])
          [.streamThen [⟨⟨1970, 1, 1, 0, 0, 2, 0, some 0⟩, 1, 1, 1, 1, none⟩]]).events :=
  ⟨stream_watermark_ordering.1 _ _ [] (by decide),
   stream_watermark_ordering.2.1 _ _ [] (by decide),
   stream_watermark_ordering.2.2 _ _ (by simp [List.Sorted])⟩

/-- C2 (amended): every successful `fetch_ohlc_data` call returns at most
`requested_limit` bars (`bars[-limit:]` after an ascending sort), sorted
non-decreasing by timestamp.  There is no clamp at 500 anywhere — see the
counterexample for a successful call returning 501 bars. -/
theorem fetch_ohlc_bounded_sorted (tok sym tf : String) (limit : ℤ)
    (resp : RestResponse) (bars : List OHLCBar)
    (h : fetch_ohlc_data tok sym tf limit resp = .ok bars) :
    (bars.length : ℤ) ≤ limit ∧ List.Sorted barLe bars := by
  unfold fetch_ohlc_data at h
  split at h
  · exact absurd h (by simp)
  case _ p hp =>
    have hlim := (fetch_request_params_ok hp).1
    split at h
    · exact absurd h (by simp)
    case _ status body =>
      split at h
      · exact absurd h (by simp)
      · split at h
        · exact absurd h (by simp)
        case _ payload =>
          split at h
          · exact absurd h (by simp)
          case _ raw_bars hraw =>
            split at h
            · exact absurd h (by simp)
            case _ bs hbs =>
              simp only [Except.ok.injEq] at h
              subst h
              constructor
              · rw [List.length_drop]
                omega
              · have hsorted : List.Sorted barLe (sortBars bs) :=
                  List.sorted_insertionSort barLe bs
                exact List.Pairwise.sublist (List.drop_sublist _ _) hsorted

theorem fetch_ohlc_bounded_sorted_witness :
    (([⟨⟨1970, 1, 1, 0, 0, 2, 0, some 0⟩, 1, 1, 1, 1, none⟩,
       ⟨⟨1970, 1, 1, 0, 0, 3, 0, some 0⟩, 1, 1, 1, 1, none⟩] : List OHLCBar).length : ℤ) ≤ 2
      ∧ List.Sorted barLe
          [⟨⟨1970, 1, 1, 0, 0, 2, 0, some 0⟩, 1, 1, 1, 1, none⟩,
           ⟨⟨1970, 1, 1, 0, 0, 3, 0, some 0⟩, 1, 1, 1, 1, none⟩] :=
  fetch_ohlc_bounded_sorted "token" "EURUSD" "M1" 2
    (.response 200 (some (.obj [("data", .arr
      [.obj [("timestamp", .num 3), ("open", .num 1), ("high", .num 1), ("low", .num 1), ("close", .num 1)],
       .obj [("timestamp", .num 1), ("open", .num 1), ("high", .num 1), ("low", .num 1), ("close", .num 1)],
       .obj [("timestamp", .num 2), ("open", .num 1), ("high", .num 1), ("low", .num 1), ("close", .num 1)]])])))
    _ (by with_unfolding_all decide)

set_option maxRecDepth 100000

/-- C2 counterexample: with `limit = 501` and an upstream response carrying
501 bars, `fetch_ohlc_data` succeeds and returns all 501 of them — more than
the `min(requested_limit, 500) = 500` the claim allows, so no clamp at 500
exists. -/
theorem fetch_limit_not_clamped_at_500 :
    (fetch_ohlc_data "token" "EURUSD" "M1" 501 (.response 200 (some (.arr
        ((List.range 501).map (fun k =>
          JValue.obj [("timestamp", .num (k + 1)), ("open", .num 1), ("high", .num 1),
                      ("low", .num 1), ("close", .num 1)])))))).toOption.map List.length
      = some 501 := by
  with_unfolding_all decide

set_option maxRecDepth 8000

theorem dropWhile_all_false (p : Char → Bool) :
    ∀ l : List Char, (∀ c ∈ l, p c = false) → l.dropWhile p = l
  | [], _ => rfl
  | a :: as, h => by
    have ha := h a (by simp)
    simp [List.dropWhile_cons, ha]

theorem pyStrip_noSpace (l : List Char) (h : ∀ c ∈ l, isPySpace c = false) :
    pyStrip l = l := by
  unfold pyStrip
  rw [dropWhile_all_false _ l h]
  rw [dropWhile_all_false _ l.reverse (fun c hc => h c (List.mem_reverse.mp hc))]
  exact List.reverse_reverse l

theorem preprocess_z_rewrite (s : List Char) (hs : ∀ c ∈ s, isPySpace c = false) :
    preprocessTs (s ++ ['Z']) = s ++ utcSuffix := by
  unfold preprocessTs
  have hz : ∀ c ∈ s ++ ['Z'], isPySpace c = false := by
    intro c hc
    rcases List.mem_append.mp hc with h | h
    · exact hs c h
    · simp only [List.mem_singleton] at h; subst h; decide
  rw [pyStrip_noSpace _ hz]
  show (if (s ++ ['Z']).getLast? = some 'Z' then (s ++ ['Z']).dropLast ++ utcSuffix
        else s ++ ['Z']) = s ++ utcSuffix
  rw [List.getLast?_concat, if_pos rfl, List.dropLast_concat]

theorem preprocess_no_z (s : List Char) (hs : ∀ c ∈ s, isPySpace c = false) :
    preprocessTs (s ++ utcSuffix) = s ++ utcSuffix := by
  unfold preprocessTs
  have hz : ∀ c ∈ s ++ utcSuffix, isPySpace c = false := by
    intro c hc
    rcases List.mem_append.mp hc with h | h
    · exact hs c h
    · fin_cases h <;> decide
  rw [pyStrip_noSpace _ hz]
  show (if (s ++ utcSuffix).getLast? = some 'Z' then (s ++ utcSuffix).dropLast ++ utcSuffix
        else s ++ utcSuffix) = s ++ utcSuffix
  rw [List.getLast?_append_of_ne_nil _ (by simp [utcSuffix])]
  simp [utcSuffix]

theorem fromtimestampUtc_aware (v : ℚ) (dt : PyDateTime)
    (h : fromtimestampUtc v = .ok dt) : dt.tzOffset = some 0 := by
  have h' : (if 1 ≤ (fromEpochUs (ratFloor (v * 1000000))).year
        ∧ (fromEpochUs (ratFloor (v * 1000000))).year ≤ 9999
      then (Except.ok (fromEpochUs (ratFloor (v * 1000000))) : Except PyErr PyDateTime)
      else .error (.valueError "year out of range")) = .ok dt := h
  split at h'
  · simp only [Except.ok.injEq] at h'
    subst h'
    rfl
  · exact absurd h' (by simp)

/-- C6 (amended): `parse_timestamp` obeys the parsing rules: a numeric value
strictly greater than `10^12` is divided by 1000 and read as epoch seconds;
a numeric value `≤ 10^12` is read as epoch seconds directly; a string ending
in `Z` is parsed exactly as the same string with the suffix rewritten to
`+00:00`; a parsed datetime lacking a timezone is assumed UTC; and every
returned value is timezone-aware.  But a string carrying an explicit offset
keeps that offset verbatim — the result is not converted to a UTC
representation (see the counterexample). -/
theorem parse_timestamp_rules :
    (∀ q : ℚ, q > 10 ^ 12 → parse_timestamp (.num q) = fromtimestampUtc (q / 1000))
    ∧ (∀ q : ℚ, q ≤ 10 ^ 12 → parse_timestamp (.num q) = fromtimestampUtc q)
    ∧ (∀ s : List Char, (∀ c ∈ s, isPySpace c = false) →
        parseStrTimestamp (s ++ ['Z']) = parseStrTimestamp (s ++ utcSuffix))
    ∧ (∀ (cs : List Char) (dt : PyDateTime), parseIso (preprocessTs cs) = some dt →
        dt.tzOffset = none → parseStrTimestamp cs = .ok { dt with tzOffset := some 0 })
    ∧ (∀ (cs : List Char) (dt : PyDateTime), parseIso (preprocessTs cs) = some dt →
        dt.tzOffset ≠ none → parseStrTimestamp cs = .ok dt)
    ∧ (∀ (v : JValue) (dt : PyDateTime), parse_timestamp v = .ok dt → dt.tzOffset ≠ none) := by
  refine ⟨?_, ?_, ?_, ?_, ?_, ?_⟩
  · intro q hq
    simp only [parse_timestamp]
    rw [if_pos hq]
  · intro q hq
    simp only [parse_timestamp]
    rw [if_neg (not_lt.mpr hq)]
  · intro s hs
    unfold parseStrTimestamp
    rw [preprocess_z_rewrite s hs, preprocess_no_z s hs]
  · intro cs dt hp hoff
    unfold parseStrTimestamp
    rw [hp]
    show (if dt.tzOffset = none then Except.ok { dt with tzOffset := some 0 }
          else Except.ok dt) = Except.ok { dt with tzOffset := some 0 }
    rw [if_pos hoff]
  · intro cs dt hp hoff
    unfold parseStrTimestamp
    rw [hp]
    show (if dt.tzOffset = none then Except.ok { dt with tzOffset := some 0 }
          else Except.ok dt) = Except.ok dt
    rw [if_neg hoff]
  · intro v dt hok
    cases v with
    | num q =>
      simp only [parse_timestamp] at hok
      split at hok <;>
        (have h0 := fromtimestampUtc_aware _ _ hok
         simp [h0])
    | bool b =>
      simp only [parse_timestamp] at hok
      have h0 := fromtimestampUtc_aware _ _ hok
      simp [h0]
    | str s =>
      simp only [parse_timestamp] at hok
      unfold parseStrTimestamp at hok
      split at hok
      · exact absurd hok (by simp)
      case _ dt0 hdt0 =>
        by_cases hoff : dt0.tzOffset = none
        · rw [if_pos hoff] at hok
          simp only [Except.ok.injEq] at hok
          subst hok
          simp
        · rw [if_neg hoff] at hok
          simp only [Except.ok.injEq] at hok
          subst hok
          exact hoff
    | null => exact absurd hok (by simp [parse_timestamp])
    | arr xs => exact absurd hok (by simp [parse_timestamp])
    | obj fs => exact absurd hok (by simp [parse_timestamp])

theorem parse_timestamp_rules_witness :
    parse_timestamp (.num (2 * 10 ^ 12)) = fromtimestampUtc (2 * 10 ^ 12 / 1000)
      ∧ parse_timestamp (.num 1704067200) = fromtimestampUtc 1704067200
      ∧ parseStrTimestamp ("2024-01-01T00:00:00".data ++ ['Z'])
          = parseStrTimestamp ("2024-01-01T00:00:00".data ++ utcSuffix)
      ∧ parseStrTimestamp "2024-01-01T00:00:00".data
          = .ok { (⟨2024, 1, 1, 0, 0, 0, 0, none⟩ : PyDateTime) with tzOffset := some 0 } :=
  ⟨parse_timestamp_rules.1 _ (by norm_num),
   parse_timestamp_rules.2.1 _ (by norm_num),
   parse_timestamp_rules.2.2.1 _ (by decide),
   parse_timestamp_rules.2.2.2.1 _ _ (by decide) (by decide)⟩

/-- C6 counterexample: a string timestamp with an explicit `+02:00` offset is
returned with that offset retained (`tzOffset = 7200` seconds), not
converted to UTC, contradicting the claim that every returned value is a
UTC instant ("all results are converted to UTC"). -/
theorem parse_timestamp_offset_not_utc :
    parse_timestamp (.str "2024-01-01T00:00:00+02:00")
        = .ok ⟨2024, 1, 1, 0, 0, 0, 0, some 7200⟩
      ∧ (⟨2024, 1, 1, 0, 0, 0, 0, some 7200⟩ : PyDateTime).tzOffset ≠ some 0 := by
  constructor
  · decide
  · decide

theorem digitVal_digitChar {d : ℕ} (h : d < 10) : digitVal? (digitChar d) = some d := by
  interval_cases d <;> rfl

theorem parse2_print {n : ℕ} (h : n < 100) :
    parse2 (digitChar (n / 10)) (digitChar (n % 10)) = some n := by
  have h1 : n / 10 < 10 := by omega
  have h2 : n % 10 < 10 := by omega
  simp [parse2, digitVal_digitChar h1, digitVal_digitChar h2]
  omega

theorem parse4_print {n : ℕ} (h : n < 10000) :
    parse4 (digitChar (n / 1000)) (digitChar (n / 100 % 10))
        (digitChar (n / 10 % 10)) (digitChar (n % 10)) = some n := by
  have h1 : n / 1000 < 10 := by omega
  have h2 : n / 100 % 10 < 10 := by omega
  have h3 : n / 10 % 10 < 10 := by omega
  have h4 : n % 10 < 10 := by omega
  simp [parse4, digitVal_digitChar h1, digitVal_digitChar h2,
    digitVal_digitChar h3, digitVal_digitChar h4]
  omega

theorem parseDigits_print6 {n : ℕ} (h : n < 1000000) :
    parseDigits (print6 n) = some n := by
  have h1 : n / 100000 < 10 := by omega
  have h2 : n / 10000 % 10 < 10 := by omega
  have h3 : n / 1000 % 10 < 10 := by omega
  have h4 : n / 100 % 10 < 10 := by omega
  have h5 : n / 10 % 10 < 10 := by omega
  have h6 : n % 10 < 10 := by omega
  simp [parseDigits, print6, List.foldl, digitVal_digitChar h1, digitVal_digitChar h2,
    digitVal_digitChar h3, digitVal_digitChar h4, digitVal_digitChar h5, digitVal_digitChar h6]
  omega

theorem span_print6 {n : ℕ} (h : n < 1000000) :
    List.span (fun c => (digitVal? c).isSome) (print6 n ++ utcSuffix)
      = (print6 n, utcSuffix) := by
  have h1 : n / 100000 < 10 := by omega
  have h2 : n / 10000 % 10 < 10 := by omega
  have h3 : n / 1000 % 10 < 10 := by omega
  have h4 : n / 100 % 10 < 10 := by omega
  have h5 : n / 10 % 10 < 10 := by omega
  have h6 : n % 10 < 10 := by omega
  rw [List.span_eq_take_drop]
  dsimp only [print6, utcSuffix, List.cons_append, List.nil_append]
  simp [List.takeWhile_cons, List.dropWhile_cons,
    digitVal_digitChar h1, digitVal_digitChar h2, digitVal_digitChar h3,
    digitVal_digitChar h4, digitVal_digitChar h5, digitVal_digitChar h6,
    (by decide : digitVal? '+' = none)]

theorem replaceAux_nil (pat rep : List Char) : ∀ fuel, replaceAux pat rep fuel [] = []
  | 0 => rfl
  | _ + 1 => rfl

theorem replaceAux_skip_body (body : List Char) (hb : ∀ c ∈ body, c ≠ '+') :
    ∀ fuel, (body ++ utcSuffix).length ≤ fuel →
      replaceAux utcSuffix ['Z'] fuel (body ++ utcSuffix) = body ++ ['Z'] := by
  induction body with
  | nil =>
    intro fuel hf
    cases fuel with
    | zero => simp [utcSuffix] at hf
    | succ f =>
      show replaceAux utcSuffix ['Z'] (f + 1) ([] ++ utcSuffix) = ['Z']
      rw [List.nil_append]
      show replaceAux utcSuffix ['Z'] (f + 1) ('+' :: ['0', '0', ':', '0', '0']) = ['Z']
      rw [replaceAux]
      rw [if_pos (by decide : leadsWith utcSuffix ('+' :: ['0', '0', ':', '0', '0']) = true)]
      show ['Z'] ++ replaceAux utcSuffix ['Z'] f
        (('+' :: ['0', '0', ':', '0', '0']).drop utcSuffix.length) = ['Z']
      rw [show (('+' :: ['0', '0', ':', '0', '0']).drop utcSuffix.length) = [] by decide]
      rw [replaceAux_nil]
      rfl
  | cons c bs ih =>
    intro fuel hf
    cases fuel with
    | zero => simp at hf
    | succ f =>
      have hc : c ≠ '+' := hb c (by simp)
      show replaceAux utcSuffix ['Z'] (f + 1) (c :: (bs ++ utcSuffix)) = c :: (bs ++ ['Z'])
      rw [replaceAux]
      have hlw : leadsWith utcSuffix (c :: (bs ++ utcSuffix)) = false := by
        show leadsWith ('+' :: ['0', '0', ':', '0', '0']) (c :: (bs ++ utcSuffix)) = false
        show (('+' = c : Bool) && leadsWith ['0', '0', ':', '0', '0'] (bs ++ utcSuffix)) = false
        simp [Ne.symm hc]
      rw [if_neg (by simp [hlw])]
      congr 1
      apply ih (fun x hx => hb x (by simp [hx]))
      have := hf
      simp at this ⊢
      omega

theorem digitChar_good (d : ℕ) : digitChar d ≠ '+' ∧ isPySpace (digitChar d) = false := by
  rcases Nat.lt_or_ge d 10 with hd | hd
  · interval_cases d <;> exact ⟨by decide, by decide⟩
  · unfold digitChar
    rw [List.getD_eq_default _ _ (by simp [decimalDigits]; omega)]
    exact ⟨by decide, by decide⟩

theorem print2_good (n : ℕ) : ∀ c ∈ print2 n, c ≠ '+' ∧ isPySpace c = false := by
  intro c hc
  rcases (by simpa [print2] using hc : c = digitChar (n / 10) ∨ c = digitChar (n % 10)) with
    rfl | rfl <;> exact digitChar_good _

theorem print4_good (n : ℕ) : ∀ c ∈ print4 n, c ≠ '+' ∧ isPySpace c = false := by
  intro c hc
  simp only [print4, List.mem_cons, List.mem_singleton, List.not_mem_nil, or_false] at hc
  rcases hc with rfl | rfl | rfl | rfl <;> exact digitChar_good _

theorem print6_good (n : ℕ) : ∀ c ∈ print6 n, c ≠ '+' ∧ isPySpace c = false := by
  intro c hc
  simp only [print6, List.mem_cons, List.mem_singleton, List.not_mem_nil, or_false] at hc
  rcases hc with rfl | rfl | rfl | rfl | rfl | rfl <;> exact digitChar_good _

theorem isoBody_good (dt : PyDateTime) :
    ∀ c ∈ isoBody dt, c ≠ '+' ∧ isPySpace c = false := by
  unfold isoBody
  refine List.forall_mem_append.mpr ⟨?_, ?_⟩
  · refine List.forall_mem_append.mpr ⟨?_, ?_⟩
    · refine List.forall_mem_append.mpr ⟨?_, ?_⟩
      · refine List.forall_mem_append.mpr ⟨?_, ?_⟩
        · refine List.forall_mem_append.mpr ⟨?_, ?_⟩
          · refine List.forall_mem_append.mpr ⟨print4_good _, ?_⟩
            exact List.forall_mem_cons.mpr ⟨by decide, print2_good _⟩
          · exact List.forall_mem_cons.mpr ⟨by decide, print2_good _⟩
        · exact List.forall_mem_cons.mpr ⟨by decide, print2_good _⟩
      · exact List.forall_mem_cons.mpr ⟨by decide, print2_good _⟩
    · exact List.forall_mem_cons.mpr ⟨by decide, print2_good _⟩
  · split
    · intro c hc; simp at hc
    · exact List.forall_mem_cons.mpr ⟨by decide, print6_good _⟩

theorem astimezoneUtc_tz (ts : PyDateTime) : (astimezoneUtc ts).tzOffset = some 0 := rfl

theorem isoformat_utc (dt : PyDateTime) (h : dt.tzOffset = some 0) :
    isoformat dt = isoBody dt ++ utcSuffix := by
  unfold isoformat
  rw [h]
  show isoBody dt ++ offsetChars 0 = isoBody dt ++ utcSuffix
  rw [show offsetChars 0 = utcSuffix by decide]

theorem format_timestamp_eq (ts : PyDateTime) :
    format_timestamp ts = isoBody (astimezoneUtc ts) ++ ['Z'] := by
  unfold format_timestamp pyReplace
  rw [isoformat_utc _ (astimezoneUtc_tz ts)]
  exact replaceAux_skip_body _ (fun c hc => (isoBody_good _ c hc).1) _ (le_refl _)

theorem parseOffsetEnd_utc : parseOffsetEnd utcSuffix = some (some 0) := by decide

theorem parseIso_isoBody (y mo d h mi s us : ℕ)
    (hy1 : 1 ≤ y) (hy2 : y ≤ 9999) (hmo1 : 1 ≤ mo) (hmo2 : mo ≤ 12)
    (hd1 : 1 ≤ d) (hd2 : d ≤ daysInMonth y mo)
    (hh : h ≤ 23) (hmi : mi ≤ 59) (hs : s ≤ 59) (hus : us ≤ 999999) :
    parseIso (isoBody ⟨y, mo, d, h, mi, s, us, some 0⟩ ++ utcSuffix)
      = some ⟨y, mo, d, h, mi, s, us, some 0⟩ := by
  have hy' : y < 10000 := by omega
  have hmo' : mo < 100 := by omega
  have hd' : d < 100 := by
    have : daysInMonth y mo ≤ 31 := by
      unfold daysInMonth
      split
      · split <;> omega
      · split <;> omega
    omega
  have hh' : h < 100 := by omega
  have hmi' : mi < 100 := by omega
  have hs' : s < 100 := by omega
  have hcond : 1 ≤ y ∧ y ≤ 9999 ∧ 1 ≤ mo ∧ mo ≤ 12 ∧ 1 ≤ d ∧ d ≤ daysInMonth y mo
      ∧ h ≤ 23 ∧ mi ≤ 59 ∧ s ≤ 59 ∧ us ≤ 999999 ∧ offsetOk (some 0) = true :=
    ⟨hy1, hy2, hmo1, hmo2, hd1, hd2, hh, hmi, hs, hus, by decide⟩
  by_cases hu : us = 0
  · subst hu
    simp only [isoBody, if_true, List.append_nil, reduceIte]
    dsimp only [print4, print2, utcSuffix]
    simp only [List.cons_append, List.nil_append, List.append_assoc]
    simp only [parseIso]
    rw [parse4_print hy', parse2_print hmo', parse2_print hd']
    simp only [reduceIte]
    rw [parse2_print hh', parse2_print hmi']
    simp only [reduceIte]
    rw [parse2_print hs']
    simp only [reduceIte]
    rw [show parseOffsetEnd ('+' :: '0' :: '0' :: ':' :: '0' :: '0' :: ([] : List Char))
        = some (some 0) from by decide]
    dsimp only
    unfold mkParsed
    rw [if_pos hcond]
    simp
  · simp only [isoBody]
    rw [if_neg hu]
    dsimp only [print4, print2]
    simp only [List.cons_append, List.nil_append, List.append_assoc]
    simp only [parseIso]
    rw [parse4_print hy', parse2_print hmo', parse2_print hd']
    simp only [reduceIte]
    rw [parse2_print hh', parse2_print hmi']
    simp only [reduceIte]
    rw [parse2_print hs']
    simp only [reduceIte]
    unfold parseFracAndOffset
    rw [span_print6 (by omega : us < 1000000)]
    dsimp only
    rw [if_pos (by dsimp only [print6]; rfl : (print6 us).length = 6)]
    rw [parseDigits_print6 (by omega : us < 1000000), parseOffsetEnd_utc]
    dsimp only
    unfold mkParsed
    rw [if_pos hcond]
    simp

/-- The invariant Python's `datetime` constructor enforces on every datetime
object; `astimezone` raises `OverflowError`/`ValueError` instead of
producing fields outside these ranges. -/
def validFields (dt : PyDateTime) : Prop :=
  1 ≤ dt.year ∧ dt.year ≤ 9999 ∧ 1 ≤ dt.month ∧ dt.month ≤ 12 ∧ 1 ≤ dt.day
    ∧ dt.day ≤ daysInMonth dt.year dt.month ∧ dt.hour ≤ 23 ∧ dt.minute ≤ 59
    ∧ dt.second ≤ 59 ∧ dt.microsecond ≤ 999999

instance : DecidablePred validFields := fun dt => by
  unfold validFields
  exact inferInstance

theorem parseIso_isoBody_dt (dt : PyDateTime) (hoff : dt.tzOffset = some 0)
    (hv : validFields dt) :
    parseIso (isoBody dt ++ utcSuffix) = some dt := by
  obtain ⟨y, mo, d, h, mi, s, us, off⟩ := dt
  obtain ⟨h1, h2, h3, h4, h5, h6, h7, h8, h9, h10⟩ := hv
  simp only at hoff h1 h2 h3 h4 h5 h6 h7 h8 h9 h10
  subst hoff
  exact parseIso_isoBody y mo d h mi s us h1 h2 h3 h4 h5 h6 h7 h8 h9 h10

/-- C10: round trip.  For every timezone-aware datetime `ts` whose UTC
conversion is a valid datetime (Python's `astimezone` would raise
otherwise), `parse_timestamp (format_timestamp ts)` returns exactly
`ts.astimezone(timezone.utc)`: `format_timestamp` emits the ISO-8601 UTC
string with a `Z` suffix and `parse_timestamp` inverts it exactly. -/
theorem format_parse_roundtrip (ts : PyDateTime) (_hts : ts.tzOffset ≠ none)
    (hv : validFields (astimezoneUtc ts)) :
    parse_timestamp (.str (String.mk (format_timestamp ts))) = .ok (astimezoneUtc ts) := by
  show parseStrTimestamp (String.mk (format_timestamp ts)).data = _
  show parseStrTimestamp (format_timestamp ts) = _
  rw [format_timestamp_eq ts]
  unfold parseStrTimestamp
  rw [preprocess_z_rewrite _ (fun c hc => (isoBody_good _ c hc).2)]
  rw [parseIso_isoBody_dt _ (astimezoneUtc_tz ts) hv]
  show (if (astimezoneUtc ts).tzOffset = none
      then Except.ok { astimezoneUtc ts with tzOffset := some 0 }
      else Except.ok (astimezoneUtc ts)) = Except.ok (astimezoneUtc ts)
  rw [if_neg (by rw [astimezoneUtc_tz]; exact Option.some_ne_none 0)]

theorem format_parse_roundtrip_witness :
    parse_timestamp (.str (String.mk (format_timestamp ⟨2024, 5, 17, 12, 30, 45, 123456, some 7200⟩)))
      = .ok (astimezoneUtc ⟨2024, 5, 17, 12, 30, 45, 123456, some 7200⟩) :=
  format_parse_roundtrip ⟨2024, 5, 17, 12, 30, 45, 123456, some 7200⟩
    (by decide) (by decide)
